import Mathlib

/-!
Shallow embedding of the concurrent SQLite connection pool of
`react-native-quick-sqlite` (`src/cpp/sqliteBridge.cpp`: the registry entry
points and `ConnectionPool`), together with proofs about its lock-granting,
queueing, attach/detach and registry behaviour.

The C++ mutates a `ConnectionPool` in place and fires an
`onContextCallback` function pointer; here every operation returns the new
pool state together with the list of callback invocations it performed
(`PoolEvent`s).  SQLite itself, file I/O and worker threads are external
collaborators: a connection's work queue records the queued thunks, and
statement execution is abstracted by an environment function supplied to
`attachDatabase` / `detachDatabase`.
-/

set_option linter.unusedVariables false

namespace QuickSQLite

/-- `ConnectionLockId` (a context ID): an opaque caller-chosen string. -/
abbrev ConnectionLockId := String

/-- Result of a bridge operation (`SQLiteOPResult` in the source: a `type`
field that is `SQLiteOk` or `SQLiteError`, plus an `errorMessage`). -/
inductive SQLiteOPResult where
  | SQLiteOk : SQLiteOPResult
  | SQLiteError (errorMessage : String) : SQLiteOPResult
deriving Repr, DecidableEq

/-- Result of `sqliteExecuteLiteralWithDB` (`SequelLiteralUpdateResult` in the
source), reduced to the `type`/`message` fields the pool code inspects. -/
inductive SequelLiteralUpdateResult where
  | ok : SequelLiteralUpdateResult
  | error (message : String) : SequelLiteralUpdateResult
deriving Repr, DecidableEq

/-- A work item queued on a connection: the list of SQL statements the queued
thunk executes on the connection's handle. -/
abbrev WorkItem := List String

/-- Modelled from the spec: `ConnectionState` (the Connection component),
whose source file is not under `src/`.  Per the spec it owns a current-lock
slot (empty or a context ID) and a FIFO work queue of thunks; the SQLite
handle and worker thread are not represented. -/
structure ConnectionState where
  lock : Option ConnectionLockId
  workQueue : List WorkItem
deriving Repr, DecidableEq

namespace ConnectionState

/-- Modelled from the spec: `is_empty_lock() → bool`: true iff the slot is
empty. -/
def isEmptyLock (c : ConnectionState) : Bool :=
  c.lock.isNone

/-- Modelled from the spec: `matches_lock(context_id) → bool`: true iff the
current-lock slot equals `context_id`. -/
def matchesLock (c : ConnectionState) (contextId : ConnectionLockId) : Bool :=
  c.lock = some contextId

/-- Modelled from the spec: `activate_lock(context_id)`: set the current-lock
slot to `context_id`. -/
def activateLock (c : ConnectionState) (contextId : ConnectionLockId) : ConnectionState :=
  { c with lock := some contextId }

/-- Modelled from the spec: `clear_lock()`: set the slot to empty. -/
def clearLock (c : ConnectionState) : ConnectionState :=
  { c with lock := none }

/-- Modelled from the spec: `queue_work(task)`: append `task` to the FIFO
work queue. -/
def queueWork (c : ConnectionState) (task : WorkItem) : ConnectionState :=
  { c with workQueue := c.workQueue ++ [task] }

/-- A freshly opened connection: empty lock slot, empty work queue. -/
def fresh : ConnectionState :=
  { lock := none, workQueue := [] }

end ConnectionState

/-- An invocation of the pool's `onContextCallback` function pointer
(`activateContext` fires it with the pool's `dbName` and the granted
context). -/
inductive PoolEvent where
  | contextAvailable (dbName : String) (contextId : ConnectionLockId) : PoolEvent
deriving Repr, DecidableEq

/-- `ConnectionPool`: one write connection, `maxReads` read connections (the
list always has length `maxReads`, so the field is represented by
`List.length`), and the two FIFO wait queues. -/
structure ConnectionPool where
  dbName : String
  writeConnection : ConnectionState
  readConnections : List ConnectionState
  readQueue : List ConnectionLockId
  writeQueue : List ConnectionLockId
deriving Repr, DecidableEq

namespace ConnectionPool

/-- `maxReads` (`numReadConnections` at construction): the read connections
are created once in the constructor and the vector is never resized, so its
length is exactly the stored field. -/
def maxReads (p : ConnectionPool) : Nat :=
  p.readConnections.length

/-- `isConcurrencyEnabled = maxReads > 0`, set in the constructor. -/
def isConcurrencyEnabled (p : ConnectionPool) : Bool :=
  decide (p.maxReads > 0)

/-- The WAL-setup thunk queued on the write connection by the constructor. -/
def walWriteSetup : WorkItem :=
  ["PRAGMA journal_mode = WAL;",
   "PRAGMA journal_size_limit = 6291456",
   "PRAGMA synchronous = NORMAL;"]

/-- The setup thunk queued on each read connection by the constructor. -/
def walReadSetup : WorkItem :=
  ["PRAGMA synchronous = NORMAL;"]

/-- `ConnectionPool::ConnectionPool(dbName, docPath, numReadConnections)`:
opens the write connection and `numReadConnections` read connections, then —
only when `isConcurrencyEnabled` (i.e. `maxReads > 0`) — queues the WAL
setup on the write connection and the synchronous PRAGMA on each reader.
(`docPath` only affects the SQLite open call, which is not modelled.) -/
def mkPool (dbName docPath : String) (numReadConnections : Nat) : ConnectionPool :=
  let base : ConnectionPool :=
    { dbName := dbName
      writeConnection := ConnectionState.fresh
      readConnections := List.replicate numReadConnections ConnectionState.fresh
      readQueue := []
      writeQueue := [] }
  if numReadConnections > 0 then
    { base with
      writeConnection := base.writeConnection.queueWork walWriteSetup
      readConnections := base.readConnections.map (·.queueWork walReadSetup) }
  else
    base

/-- The `for (i = 0; i < maxReads; i++) { if (cond(readConnections[i])) {
act-and-return } }` loop shape shared by `readLock`, `closeContext` and
`queueInContext`: replace the first element satisfying `cond` by its image
under `act`, or report that none did. -/
def replaceFirst (cond : ConnectionState → Bool) (act : ConnectionState → ConnectionState) :
    List ConnectionState → Option (List ConnectionState)
  | [] => none
  | c :: cs =>
    if cond c then
      some (act c :: cs)
    else
      (replaceFirst cond act cs).map (c :: ·)

/-- `ConnectionPool::writeLock(contextId)`: bind immediately when the write
slot is empty (firing the context-available callback), else enqueue at the
tail of the write wait queue. -/
def writeLock (p : ConnectionPool) (contextId : ConnectionLockId) :
    ConnectionPool × List PoolEvent :=
  if p.writeConnection.isEmptyLock then
    ({ p with writeConnection := p.writeConnection.activateLock contextId },
     [PoolEvent.contextAvailable p.dbName contextId])
  else
    ({ p with writeQueue := p.writeQueue ++ [contextId] }, [])

/-- `ConnectionPool::readLock(contextId)`: delegate to `writeLock` when
concurrency is disabled; else enqueue when the read queue is already
non-empty; else bind to the first reader with an empty slot; else enqueue. -/
def readLock (p : ConnectionPool) (contextId : ConnectionLockId) :
    ConnectionPool × List PoolEvent :=
  if p.isConcurrencyEnabled = false then
    p.writeLock contextId
  else if p.readQueue.length > 0 then
    ({ p with readQueue := p.readQueue ++ [contextId] }, [])
  else
    match replaceFirst (·.isEmptyLock) (·.activateLock contextId) p.readConnections with
    | some rcs =>
        ({ p with readConnections := rcs },
         [PoolEvent.contextAvailable p.dbName contextId])
    | none =>
        ({ p with readQueue := p.readQueue ++ [contextId] }, [])

/-- The rebinding performed by `closeContext` on the connection whose slot
matched: activate the head of the wait queue when one is supplied, else clear
the slot. -/
def rebind (next : Option ConnectionLockId) (c : ConnectionState) : ConnectionState :=
  match next with
  | some n => c.activateLock n
  | none => c.clearLock

/-- `ConnectionPool::closeContext(contextId)`: if the write slot matches,
hand the write connection to the head of the write queue (or clear the
slot); else scan the readers for the matching slot and do the same with the
read queue; a context matching nothing is a silent no-op. -/
def closeContext (p : ConnectionPool) (contextId : ConnectionLockId) :
    ConnectionPool × List PoolEvent :=
  if p.writeConnection.matchesLock contextId then
    match p.writeQueue with
    | n :: rest =>
        ({ p with writeConnection := p.writeConnection.activateLock n, writeQueue := rest },
         [PoolEvent.contextAvailable p.dbName n])
    | [] =>
        ({ p with writeConnection := p.writeConnection.clearLock }, [])
  else
    match p.readQueue with
    | n :: rest =>
        match replaceFirst (·.matchesLock contextId) (rebind (some n)) p.readConnections with
        | some rcs =>
            ({ p with readConnections := rcs, readQueue := rest },
             [PoolEvent.contextAvailable p.dbName n])
        | none => (p, [])
    | [] =>
        match replaceFirst (·.matchesLock contextId) (rebind none) p.readConnections with
        | some rcs => ({ p with readConnections := rcs }, [])
        | none => (p, [])

/-- `ConnectionPool::queueInContext(contextId, task)`: find the connection
whose lock slot matches (write connection first, then readers in index
order); if none, fail with "Context is no longer available"; else enqueue the
task on that connection. -/
def queueInContext (p : ConnectionPool) (contextId : ConnectionLockId) (task : WorkItem) :
    SQLiteOPResult × ConnectionPool :=
  if p.writeConnection.matchesLock contextId then
    (SQLiteOPResult.SQLiteOk, { p with writeConnection := p.writeConnection.queueWork task })
  else
    match replaceFirst (·.matchesLock contextId) (·.queueWork task) p.readConnections with
    | some rcs => (SQLiteOPResult.SQLiteOk, { p with readConnections := rcs })
    | none => (SQLiteOPResult.SQLiteError "Context is no longer available", p)

/-- `ConnectionPool::getAllConnections()`: the write connection followed by
the read connections in index order. -/
def getAllConnections (p : ConnectionPool) : List ConnectionState :=
  p.writeConnection :: p.readConnections

/-- The SQLite environment seen by `attachDatabase` / `detachDatabase`: the
result `sqliteExecuteLiteralWithDB` would return for the given statement on
the connection at the given position of `getAllConnections` (0 = write
connection, `i + 1` = read connection `i`).  `sqliteExecuteLiteralWithDB`
itself is an SQL execution primitive whose source is not under `src/`. -/
abbrev ExecEnv := Nat → String → SequelLiteralUpdateResult

/-- The `for (auto &connectionState : dbConnections)` execution loop of
`attachDatabase` / `detachDatabase`, starting at connection position `i`:
run `statement` on each connection in order, stopping at the first SQLite
error.  Returns the error message (if any) and the trace of
`(connection position, statement)` executions attempted, in order. -/
def runOnEach (exec : ExecEnv) (statement : String) :
    Nat → List ConnectionState → Option String × List (Nat × String)
  | _, [] => (none, [])
  | i, _ :: cs =>
    match exec i statement with
    | SequelLiteralUpdateResult.error m => (some m, [(i, statement)])
    | SequelLiteralUpdateResult.ok =>
        let r := runOnEach exec statement (i + 1) cs
        (r.1, (i, statement) :: r.2)

/-- Modelled from the spec: `get_db_path(name, base_path)` (in `fileUtils`,
not under `src/`) concatenates the base path with the database name;
`:memory:` and other SQLite URI forms pass through unchanged. -/
def get_db_path (dbFileName docPath : String) : String :=
  if dbFileName = ":memory:" then dbFileName else docPath ++ "/" ++ dbFileName

/-- `ConnectionPool::detachDatabase(dbAlias)`: as written in the source, the
guard loop returns the "Some DB connections were locked" error as soon as it
sees a connection whose lock slot IS empty (`if (connectionState->isEmptyLock())`);
otherwise it runs `DETACH DATABASE <dbAlias>` on every connection in
`getAllConnections` order, returning the first SQLite error (wrapped, like
in the source, in an "unable to attach" message) with no revert.  The second
component is the trace of statement executions performed. -/
def detachDatabase (p : ConnectionPool) (exec : ExecEnv) (dbAlias : String) :
    SQLiteOPResult × List (Nat × String) :=
  let statement := "DETACH DATABASE " ++ dbAlias
  let dbConnections := p.getAllConnections
  if dbConnections.any (·.isEmptyLock) then
    (SQLiteOPResult.SQLiteError
      (p.dbName ++ " was unable to detach another database: Some DB connections were locked"),
     [])
  else
    match runOnEach exec statement 0 dbConnections with
    | (some m, tr) =>
        (SQLiteOPResult.SQLiteError
          (p.dbName ++ " was unable to attach another database: " ++ m), tr)
    | (none, tr) => (SQLiteOPResult.SQLiteOk, tr)

/-- `ConnectionPool::attachDatabase(dbFileName, docPath, dbAlias)`: the same
guard loop as `detachDatabase` (as written, it fails when some lock slot IS
empty); otherwise runs the ATTACH statement on every connection, and on a
mid-loop SQLite error reverts by calling `detachDatabase dbAlias` (whose
result is discarded) before returning the error.  The trace concatenates the
attach attempts with any revert's detach attempts. -/
def attachDatabase (p : ConnectionPool) (exec : ExecEnv)
    (dbFileName docPath dbAlias : String) : SQLiteOPResult × List (Nat × String) :=
  let dbPath := get_db_path dbFileName docPath
  let statement := "ATTACH DATABASE '" ++ dbPath ++ "' AS " ++ dbAlias
  let dbConnections := p.getAllConnections
  if dbConnections.any (·.isEmptyLock) then
    (SQLiteOPResult.SQLiteError
      (p.dbName ++ " was unable to attach another database: Some DB connections were locked"),
     [])
  else
    match runOnEach exec statement 0 dbConnections with
    | (some m, tr) =>
        let revert := p.detachDatabase exec dbAlias
        (SQLiteOPResult.SQLiteError
          (p.dbName ++ " was unable to attach another database: " ++ m),
         tr ++ revert.2)
    | (none, tr) => (SQLiteOPResult.SQLiteOk, tr)

end ConnectionPool

/-! ## The registry (`dbMap` and the `sqlite*` entry points) -/

/-- The process-wide `std::map<std::string, ConnectionPool *> dbMap`.  A
stored `none` is a null `ConnectionPool *` (as default-inserted by
`operator[]` on a missing key). -/
abbrev DBMap := List (String × Option ConnectionPool)

/-- Key lookup: `some v` when the key is present with mapped value `v`. -/
def mapFind : DBMap → String → Option (Option ConnectionPool)
  | [], _ => none
  | (k, v) :: rest, dbName => if k = dbName then some v else mapFind rest dbName

/-- `dbMap.count(dbName)`: 1 when present, 0 when absent (keys are unique). -/
def mapCount (m : DBMap) (dbName : String) : Nat :=
  if (mapFind m dbName).isSome then 1 else 0

/-- `dbMap.erase(dbName)`. -/
def mapErase : DBMap → String → DBMap
  | [], _ => []
  | (k, v) :: rest, dbName =>
    if k = dbName then mapErase rest dbName else (k, v) :: mapErase rest dbName

/-- `dbMap[dbName] = v`: update in place when present, insert when absent. -/
def mapStore : DBMap → String → Option ConnectionPool → DBMap
  | [], dbName, v => [(dbName, v)]
  | (k, w) :: rest, dbName, v =>
    if k = dbName then (dbName, v) :: rest else (k, w) :: mapStore rest dbName v

/-- `generateNotOpenResult(dbName)`. -/
def generateNotOpenResult (dbName : String) : SQLiteOPResult :=
  SQLiteOPResult.SQLiteError (dbName ++ " is not open")

/-- `sqliteOpenDb(dbName, docPath, ..., numReadConnections)`: fail when the
name is already registered, else register a newly constructed pool.  (The
two callback registrations that follow in the source set the function
pointers; callbacks are modelled as `PoolEvent`s, so they carry no state
here.) -/
def sqliteOpenDb (dbMap : DBMap) (dbName docPath : String) (numReadConnections : Nat) :
    SQLiteOPResult × DBMap :=
  if mapCount dbMap dbName = 1 then
    (SQLiteOPResult.SQLiteError (dbName ++ " is already open"), dbMap)
  else
    (SQLiteOPResult.SQLiteOk,
     mapStore dbMap dbName (some (ConnectionPool.mkPool dbName docPath numReadConnections)))

/-- `sqliteCloseDb(dbName)`: fail when the name is absent, else close every
connection of the pool, delete it and erase the registry entry.  (`closeAll`
closes SQLite handles, which are not modelled; deletion and erasure are the
removal of the entry.) -/
def sqliteCloseDb (dbMap : DBMap) (dbName : String) : SQLiteOPResult × DBMap :=
  if mapCount dbMap dbName = 0 then
    (generateNotOpenResult dbName, dbMap)
  else
    (SQLiteOPResult.SQLiteOk, mapErase dbMap dbName)

/-- `sqliteReleaseLock(dbName, contextId)`: silent no-op when the name is
absent; else `closeContext` on the registered pool.  (A registered null pool
pointer cannot arise through `sqliteOpenDb`; that branch leaves the map
unchanged.) -/
def sqliteReleaseLock (dbMap : DBMap) (dbName : String) (contextId : ConnectionLockId) :
    DBMap × List PoolEvent :=
  if mapCount dbMap dbName = 0 then
    (dbMap, [])
  else
    match mapFind dbMap dbName with
    | some (some p) =>
        let r := p.closeContext contextId
        (mapStore dbMap dbName (some r.1), r.2)
    | _ => (dbMap, [])

/-- `sqliteAttachDb(mainDBName, docPath, databaseToAttach, dbAlias)`: "not
open" when the name is absent, else delegate to the pool's
`attachDatabase`.  (The null-pool branch cannot arise through
`sqliteOpenDb`.) -/
def sqliteAttachDb (dbMap : DBMap) (exec : ConnectionPool.ExecEnv)
    (mainDBName docPath databaseToAttach dbAlias : String) : SQLiteOPResult :=
  if mapCount dbMap mainDBName = 0 then
    generateNotOpenResult mainDBName
  else
    match mapFind dbMap mainDBName with
    | some (some p) => (p.attachDatabase exec databaseToAttach docPath dbAlias).1
    | _ => SQLiteOPResult.SQLiteError (mainDBName ++ ": null connection pool")

/-- `sqliteDetachDb(mainDBName, dbAlias)`: "not open" when the name is absent,
else delegate to the pool's `detachDatabase`. -/
def sqliteDetachDb (dbMap : DBMap) (exec : ConnectionPool.ExecEnv)
    (mainDBName dbAlias : String) : SQLiteOPResult :=
  if mapCount dbMap mainDBName = 0 then
    generateNotOpenResult mainDBName
  else
    match mapFind dbMap mainDBName with
    | some (some p) => (p.detachDatabase exec dbAlias).1
    | _ => SQLiteOPResult.SQLiteError (mainDBName ++ ": null connection pool")

/-- Outcome of `sqliteImportFile`. -/
inductive ImportOutcome where
  /-- The `SequelBatchOperationResult` error returned when the close inside
  `sqliteImportFile` fails ("DB is not open"). -/
  | failed (message : String) : ImportOutcome
  /-- Modelled from the spec: `ConnectionPool::importSQLFile` (not under
  `src/`): reads the file, splits it into statements and executes each on
  the write connection inside one transaction.  Records which pool's write
  connection performed the import. -/
  | importedOnWriteConnection (dbName fileLocation : String) : ImportOutcome
  /-- Dereference of a null `ConnectionPool *` (undefined behaviour in the
  C++). -/
  | nullPoolDereference : ImportOutcome
deriving Repr, DecidableEq

/-- The final two lines of `sqliteImportFile`: `dbMap[dbName]` followed by
`connection->importSQLFile(fileLocation)`.  `std::map::operator[]`
default-inserts a null pointer when the key is absent, and the call then
dereferences it. -/
def importThroughMap (dbMap : DBMap) (dbName fileLocation : String) :
    ImportOutcome × DBMap :=
  match mapFind dbMap dbName with
  | some (some p) => (ImportOutcome.importedOnWriteConnection p.dbName fileLocation, dbMap)
  | some none => (ImportOutcome.nullPoolDereference, dbMap)
  | none => (ImportOutcome.nullPoolDereference, mapStore dbMap dbName none)

/-- `sqliteImportFile(dbName, fileLocation)` as written in the source: when
the name is registered it first CLOSES the database (returning "DB is not
open" if that close errored), and then in every case looks `dbName` up again
with `operator[]` and calls `importSQLFile` through the resulting pointer. -/
def sqliteImportFile (dbMap : DBMap) (dbName fileLocation : String) :
    ImportOutcome × DBMap :=
  if mapCount dbMap dbName = 1 then
    let closeResult := sqliteCloseDb dbMap dbName
    match closeResult.1 with
    | SQLiteOPResult.SQLiteError _ => (ImportOutcome.failed "DB is not open", closeResult.2)
    | SQLiteOPResult.SQLiteOk => importThroughMap closeResult.2 dbName fileLocation
  else
    importThroughMap dbMap dbName fileLocation

/-! ## The pool as a transition system -/

namespace ConnectionPool

/-- Every place a context ID can occupy in a pool: the read wait queue, the
write wait queue, the write connection's lock slot and the readers' lock
slots, flattened into one list. -/
def allIds (p : ConnectionPool) : List ConnectionLockId :=
  p.readQueue ++ p.writeQueue ++ p.writeConnection.lock.toList ++
    p.readConnections.filterMap (·.lock)

/-- A context ID is outstanding when it sits in a wait queue or holds some
connection's lock slot. -/
def outstanding (p : ConnectionPool) (contextId : ConnectionLockId) : Prop :=
  contextId ∈ p.readQueue ∨ contextId ∈ p.writeQueue ∨
    p.writeConnection.lock = some contextId ∨
    ∃ c ∈ p.readConnections, c.lock = some contextId

instance (p : ConnectionPool) (contextId : ConnectionLockId) :
    Decidable (p.outstanding contextId) := by
  unfold outstanding
  infer_instance

/-- The three pool operations a caller can invoke through the registry. -/
inductive PoolOp where
  | read (contextId : ConnectionLockId) : PoolOp
  | write (contextId : ConnectionLockId) : PoolOp
  | close (contextId : ConnectionLockId) : PoolOp
deriving Repr, DecidableEq

/-- Apply one pool operation. -/
def applyOp (p : ConnectionPool) : PoolOp → ConnectionPool × List PoolEvent
  | PoolOp.read contextId => p.readLock contextId
  | PoolOp.write contextId => p.writeLock contextId
  | PoolOp.close contextId => p.closeContext contextId

/-- One step of the pool: any `closeContext`, or a `readLock` / `writeLock`
for a context ID that is not already outstanding (each context ID is
requested at most once while outstanding). -/
inductive PoolStep : ConnectionPool → ConnectionPool → Prop where
  | read (p : ConnectionPool) (contextId : ConnectionLockId) :
      ¬ p.outstanding contextId → PoolStep p (p.readLock contextId).1
  | write (p : ConnectionPool) (contextId : ConnectionLockId) :
      ¬ p.outstanding contextId → PoolStep p (p.writeLock contextId).1
  | close (p : ConnectionPool) (contextId : ConnectionLockId) :
      PoolStep p (p.closeContext contextId).1

/-- Pool states reachable from a freshly constructed pool by any sequence of
steps. -/
def Reachable (dbName docPath : String) (numReadConnections : Nat)
    (p : ConnectionPool) : Prop :=
  Relation.ReflTransGen PoolStep (mkPool dbName docPath numReadConnections) p

end ConnectionPool

/-! ## Helper lemmas about the scan loops -/

namespace ConnectionPool

theorem replaceFirst_eq_none_iff (cond : ConnectionState → Bool)
    (act : ConnectionState → ConnectionState) (l : List ConnectionState) :
    replaceFirst cond act l = none ↔ ∀ c ∈ l, cond c = false := by
  induction l with
  | nil => simp [replaceFirst]
  | cons c cs ih =>
    by_cases h : cond c
    · simp [replaceFirst, h]
    · simp only [replaceFirst, h, if_neg, Bool.false_eq_true, ↓reduceIte,
        Option.map_eq_none', List.mem_cons]
      constructor
      · intro hnone a ha
        rcases ha with rfl | ha
        · simpa using h
        · exact (ih.mp hnone) a ha
      · intro hall
        exact ih.mpr fun a ha => hall a (Or.inr ha)

theorem replaceFirst_of_split (cond : ConnectionState → Bool)
    (act : ConnectionState → ConnectionState) (l1 l2 : List ConnectionState)
    (c : ConnectionState) (h1 : ∀ a ∈ l1, cond a = false) (hc : cond c = true) :
    replaceFirst cond act (l1 ++ c :: l2) = some (l1 ++ act c :: l2) := by
  induction l1 with
  | nil => simp [replaceFirst, hc]
  | cons a l1 ih =>
    have ha : cond a = false := h1 a (by simp)
    have ih' := ih fun x hx => h1 x (by simp [hx])
    simp [replaceFirst, ha, ih']

theorem replaceFirst_eq_some (cond : ConnectionState → Bool)
    (act : ConnectionState → ConnectionState) {l l' : List ConnectionState}
    (h : replaceFirst cond act l = some l') :
    ∃ l1 c l2, l = l1 ++ c :: l2 ∧ (∀ a ∈ l1, cond a = false) ∧ cond c = true ∧
      l' = l1 ++ act c :: l2 := by
  induction l generalizing l' with
  | nil => simp [replaceFirst] at h
  | cons a cs ih =>
    by_cases ha : cond a
    · refine ⟨[], a, cs, by simp, by simp, ha, ?_⟩
      simp only [replaceFirst, ha, ↓reduceIte, Option.some.injEq] at h
      simp [← h]
    · simp only [replaceFirst, ha, Bool.false_eq_true, ↓reduceIte,
        Option.map_eq_some'] at h
      obtain ⟨cs', hcs', rfl⟩ := h
      obtain ⟨l1, c, l2, rfl, hl1, hc, rfl⟩ := ih hcs'
      exact ⟨a :: l1, c, l2, rfl, by
        intro x hx
        rcases List.mem_cons.mp hx with rfl | hx
        · simpa using ha
        · exact hl1 x hx, hc, rfl⟩

end ConnectionPool

/-! ## C3: read-lock granting -/

namespace ConnectionPool

/-- **C3.** `readLock(contextId)`: with `N = 0` readers the request is
handled exactly as a write-lock request; else a non-empty read wait queue
gets the context appended at its tail; else the readers are scanned in index
order and the context is bound to the first reader whose lock slot is empty,
firing the context-available callback; else (all readers busy, queue empty)
the context is appended at the tail of the read wait queue. -/
theorem readLock_spec (p : ConnectionPool) (contextId : ConnectionLockId) :
    (p.maxReads = 0 → p.readLock contextId = p.writeLock contextId) ∧
    (p.maxReads > 0 → p.readQueue ≠ [] →
      p.readLock contextId = ({ p with readQueue := p.readQueue ++ [contextId] }, [])) ∧
    (∀ l1 c l2, p.readQueue = [] → p.readConnections = l1 ++ c :: l2 →
      (∀ a ∈ l1, a.isEmptyLock = false) → c.isEmptyLock = true →
      p.readLock contextId =
        ({ p with readConnections := l1 ++ c.activateLock contextId :: l2 },
         [PoolEvent.contextAvailable p.dbName contextId])) ∧
    (p.maxReads > 0 → p.readQueue = [] →
      (∀ a ∈ p.readConnections, a.isEmptyLock = false) →
      p.readLock contextId = ({ p with readQueue := p.readQueue ++ [contextId] }, [])) := by
  refine ⟨?_, ?_, ?_, ?_⟩
  · intro h0
    simp [readLock, isConcurrencyEnabled, h0]
  · intro hn hq
    have : p.readQueue.length > 0 := List.length_pos.mpr hq
    simp [readLock, isConcurrencyEnabled, Nat.pos_iff_ne_zero.mp hn, this]
  · intro l1 c l2 hq hr h1 hc
    have hn : p.maxReads > 0 := by
      simp [maxReads, hr]
    rw [readLock]
    simp only [isConcurrencyEnabled, hq, List.length_nil, gt_iff_lt, Nat.lt_irrefl,
      ↓reduceIte, decide_eq_false_iff_not, Nat.not_lt, Nat.le_zero,
      Nat.pos_iff_ne_zero.mp hn, ite_false]
    rw [hr, replaceFirst_of_split _ _ l1 l2 c h1 hc]
  · intro hn hq hall
    rw [readLock]
    simp only [isConcurrencyEnabled, hq, List.length_nil, gt_iff_lt, Nat.lt_irrefl,
      ↓reduceIte, decide_eq_false_iff_not, Nat.not_lt, Nat.le_zero,
      Nat.pos_iff_ne_zero.mp hn, ite_false]
    rw [(replaceFirst_eq_none_iff _ _ _).mpr hall]

/-- Witness for C3: on a pool with one idle reader and an empty read queue,
`readLock` binds the context to that reader and fires the callback. -/
theorem readLock_spec_witness :
    ConnectionPool.readLock
        { dbName := "db", writeConnection := ConnectionState.fresh,
          readConnections := [ConnectionState.fresh], readQueue := [], writeQueue := [] }
        "ctx" =
      ({ dbName := "db", writeConnection := ConnectionState.fresh,
         readConnections := [ConnectionState.fresh.activateLock "ctx"],
         readQueue := [], writeQueue := [] },
       [PoolEvent.contextAvailable "db" "ctx"]) := by
  have h := (readLock_spec
    { dbName := "db", writeConnection := ConnectionState.fresh,
      readConnections := [ConnectionState.fresh], readQueue := [], writeQueue := [] }
    "ctx").2.2.1 [] ConnectionState.fresh [] rfl rfl (by simp) rfl
  simpa using h

/-- **C6.** `writeLock(contextId)`: an empty write slot means the context
is bound immediately with the callback fired; otherwise the context is
appended at the tail of the write wait queue, and while the current holder
still holds the writer no step other than a `closeContext` of that holder
can grant it — it is granted exactly by the holder's release. -/
theorem writeLock_exclusivity (p : ConnectionPool) (contextId holder : ConnectionLockId) :
    (p.writeConnection.lock = none →
      p.writeLock contextId =
        ({ p with writeConnection := p.writeConnection.activateLock contextId },
         [PoolEvent.contextAvailable p.dbName contextId])) ∧
    (p.writeConnection.lock = some holder →
      p.writeLock contextId = ({ p with writeQueue := p.writeQueue ++ [contextId] }, [])) ∧
    (∀ op : PoolOp, p.writeConnection.lock = some holder → contextId ∈ p.writeQueue →
      op ≠ PoolOp.close holder →
      (p.applyOp op).1.writeConnection.lock = some holder ∧
        contextId ∈ (p.applyOp op).1.writeQueue) ∧
    (∀ rest, p.writeConnection.lock = some holder → p.writeQueue = contextId :: rest →
      p.closeContext holder =
        ({ p with
            writeConnection := p.writeConnection.activateLock contextId
            writeQueue := rest },
         [PoolEvent.contextAvailable p.dbName contextId])) := by
  refine ⟨?_, ?_, ?_, ?_⟩
  · intro h
    simp [writeLock, ConnectionState.isEmptyLock, h]
  · intro h
    simp [writeLock, ConnectionState.isEmptyLock, h]
  · rintro (c' | c' | c') h hq hne
    · -- read request: either delegates to writeLock (which enqueues) or only
      -- touches the read structures
      rw [applyOp, readLock]
      by_cases hcon : p.isConcurrencyEnabled = false
      · rw [if_pos hcon]
        have hfull : p.writeConnection.isEmptyLock = false := by
          simp [ConnectionState.isEmptyLock, h]
        simp [writeLock, hfull, h, hq]
      · rw [if_neg hcon]
        by_cases hql : p.readQueue.length > 0
        · simp [hql, h, hq]
        · rw [if_neg hql]
          cases hrf : replaceFirst (·.isEmptyLock) (·.activateLock c') p.readConnections with
          | some rcs => simp [hrf, h, hq]
          | none => simp [hrf, h, hq]
    · -- write request: slot is full, so it enqueues behind contextId
      have hfull : p.writeConnection.isEmptyLock = false := by
        simp [ConnectionState.isEmptyLock, h]
      simp [applyOp, writeLock, hfull, h, hq]
    · -- release of some context other than the holder: the write side is untouched
      have hne' : c' ≠ holder := fun hh => hne (by rw [hh])
      have hm : p.writeConnection.matchesLock c' = false := by
        simp only [ConnectionState.matchesLock, h, Option.some.injEq,
          decide_eq_false_iff_not]
        exact fun hh => hne' hh.symm
      rw [applyOp, closeContext]
      simp only [hm, Bool.false_eq_true, ↓reduceIte]
      cases hrq : p.readQueue with
      | cons n rest' =>
        cases hrf : replaceFirst (·.matchesLock c') (rebind (some n)) p.readConnections with
        | some rcs => simp [hrf, h, hq]
        | none => simp [hrf, h, hq]
      | nil =>
        cases hrf : replaceFirst (·.matchesLock c') (rebind none) p.readConnections with
        | some rcs => simp [hrf, h, hq]
        | none => simp [hrf, h, hq]
  · intro rest h hq
    have hm : p.writeConnection.matchesLock holder = true := by
      simp [ConnectionState.matchesLock, h]
    simp [closeContext, hm, hq]

/-- Witness for C6: a writer held by `"w"` with `"c"` queued; releasing
`"w"` binds `"c"` and fires the callback. -/
theorem writeLock_exclusivity_witness :
    ConnectionPool.closeContext
        { dbName := "db", writeConnection := { lock := some "w", workQueue := [] },
          readConnections := [], readQueue := [], writeQueue := ["c"] } "w" =
      ({ dbName := "db", writeConnection := { lock := some "c", workQueue := [] },
         readConnections := [], readQueue := [], writeQueue := [] },
       [PoolEvent.contextAvailable "db" "c"]) := by
  have h := (writeLock_exclusivity
    { dbName := "db", writeConnection := { lock := some "w", workQueue := [] },
      readConnections := [], readQueue := [], writeQueue := ["c"] } "c" "w").2.2.2
    [] rfl rfl
  simpa [ConnectionState.activateLock] using h

/-- **C7.** `queueInContext(contextId, task)` fails with "Context is no
longer available" iff `contextId` matches neither the write connection's
lock slot nor any reader's lock slot (leaving the pool unchanged);
otherwise the task is enqueued on exactly the connection whose slot matches
and the call returns Ok. -/
theorem queueInContext_spec (p : ConnectionPool) (contextId : ConnectionLockId)
    (task : WorkItem) :
    ((p.queueInContext contextId task).1 =
        SQLiteOPResult.SQLiteError "Context is no longer available" ↔
      (p.writeConnection.matchesLock contextId = false ∧
        ∀ c ∈ p.readConnections, c.matchesLock contextId = false)) ∧
    ((p.writeConnection.matchesLock contextId = false ∧
        ∀ c ∈ p.readConnections, c.matchesLock contextId = false) →
      (p.queueInContext contextId task).2 = p) ∧
    (p.writeConnection.matchesLock contextId = true →
      p.queueInContext contextId task =
        (SQLiteOPResult.SQLiteOk,
         { p with writeConnection := p.writeConnection.queueWork task })) ∧
    (∀ l1 c l2, p.writeConnection.matchesLock contextId = false →
      p.readConnections = l1 ++ c :: l2 →
      (∀ a ∈ l1, a.matchesLock contextId = false) → c.matchesLock contextId = true →
      p.queueInContext contextId task =
        (SQLiteOPResult.SQLiteOk,
         { p with readConnections := l1 ++ c.queueWork task :: l2 })) := by
  refine ⟨?_, ?_, ?_, ?_⟩
  · constructor
    · intro herr
      by_cases hw : p.writeConnection.matchesLock contextId
      · simp [queueInContext, hw] at herr
      · cases hrf : replaceFirst (·.matchesLock contextId) (·.queueWork task)
            p.readConnections with
        | some rcs => simp [queueInContext, hw, hrf] at herr
        | none =>
          exact ⟨Bool.eq_false_iff.mpr hw,
            (replaceFirst_eq_none_iff _ _ _).mp hrf⟩
    · rintro ⟨hw, hall⟩
      simp [queueInContext, hw, (replaceFirst_eq_none_iff _ _ _).mpr hall]
  · rintro ⟨hw, hall⟩
    simp [queueInContext, hw, (replaceFirst_eq_none_iff _ _ _).mpr hall]
  · intro hw
    simp [queueInContext, hw]
  · intro l1 c l2 hw hr h1 hc
    rw [queueInContext]
    simp only [hw, Bool.false_eq_true, ↓reduceIte]
    rw [hr, replaceFirst_of_split _ _ l1 l2 c h1 hc]

/-- Witness for C7: on a pool whose only reader is locked by `"r"`, queueing
in a stale context fails with "Context is no longer available", and queueing
in `"r"` reaches that reader. -/
theorem queueInContext_spec_witness :
    (ConnectionPool.queueInContext
        { dbName := "db", writeConnection := { lock := some "w", workQueue := [] },
          readConnections := [{ lock := some "r", workQueue := [] }],
          readQueue := [], writeQueue := [] } "gone" ["SELECT 1"]).1 =
      SQLiteOPResult.SQLiteError "Context is no longer available" := by
  have h := ((queueInContext_spec
    { dbName := "db", writeConnection := { lock := some "w", workQueue := [] },
      readConnections := [{ lock := some "r", workQueue := [] }],
      readQueue := [], writeQueue := [] } "gone" ["SELECT 1"]).1).mpr
    (by refine ⟨by simp [ConnectionState.matchesLock], ?_⟩
        intro c hc
        simp only [List.mem_singleton] at hc
        subst hc
        simp [ConnectionState.matchesLock])
  exact h

/-- **C4.** `closeContext(contextId)`: a release of the write holder pops
the write queue's head into the write slot (callback fired) or clears the
slot when the queue is empty; symmetrically for the first reader whose slot
matches, using the read queue; a context matching no connection is a silent
no-op (as is `sqliteReleaseLock` on an unregistered database name); and a
release of a held context advances the corresponding queue by exactly its
head. -/
theorem closeContext_spec (p : ConnectionPool) (contextId : ConnectionLockId) :
    (∀ n rest, p.writeConnection.lock = some contextId → p.writeQueue = n :: rest →
      p.closeContext contextId =
        ({ p with
            writeConnection := p.writeConnection.activateLock n
            writeQueue := rest },
         [PoolEvent.contextAvailable p.dbName n])) ∧
    (p.writeConnection.lock = some contextId → p.writeQueue = [] →
      p.closeContext contextId =
        ({ p with writeConnection := p.writeConnection.clearLock }, [])) ∧
    (∀ l1 c l2 n rest, p.writeConnection.lock ≠ some contextId →
      p.readConnections = l1 ++ c :: l2 → (∀ a ∈ l1, a.lock ≠ some contextId) →
      c.lock = some contextId → p.readQueue = n :: rest →
      p.closeContext contextId =
        ({ p with
            readConnections := l1 ++ c.activateLock n :: l2
            readQueue := rest },
         [PoolEvent.contextAvailable p.dbName n])) ∧
    (∀ l1 c l2, p.writeConnection.lock ≠ some contextId →
      p.readConnections = l1 ++ c :: l2 → (∀ a ∈ l1, a.lock ≠ some contextId) →
      c.lock = some contextId → p.readQueue = [] →
      p.closeContext contextId =
        ({ p with readConnections := l1 ++ c.clearLock :: l2 }, [])) ∧
    (p.writeConnection.lock ≠ some contextId →
      (∀ a ∈ p.readConnections, a.lock ≠ some contextId) →
      p.closeContext contextId = (p, [])) ∧
    (∀ dbMap dbName, mapFind dbMap dbName = none →
      sqliteReleaseLock dbMap dbName contextId = (dbMap, [])) := by
  refine ⟨?_, ?_, ?_, ?_, ?_, ?_⟩
  · intro n rest h hq
    have hm : p.writeConnection.matchesLock contextId = true := by
      simp [ConnectionState.matchesLock, h]
    simp [closeContext, hm, hq]
  · intro h hq
    have hm : p.writeConnection.matchesLock contextId = true := by
      simp [ConnectionState.matchesLock, h]
    simp [closeContext, hm, hq]
  · intro l1 c l2 n rest hw hr h1 hc hq
    have hm : p.writeConnection.matchesLock contextId = false := by
      simp [ConnectionState.matchesLock, hw]
    have h1' : ∀ a ∈ l1, a.matchesLock contextId = false := fun a ha => by
      simp [ConnectionState.matchesLock, h1 a ha]
    have hc' : c.matchesLock contextId = true := by
      simp [ConnectionState.matchesLock, hc]
    rw [closeContext]
    simp only [hm, Bool.false_eq_true, ↓reduceIte, hq]
    rw [hr, replaceFirst_of_split _ _ l1 l2 c h1' hc']
    rfl
  · intro l1 c l2 hw hr h1 hc hq
    have hm : p.writeConnection.matchesLock contextId = false := by
      simp [ConnectionState.matchesLock, hw]
    have h1' : ∀ a ∈ l1, a.matchesLock contextId = false := fun a ha => by
      simp [ConnectionState.matchesLock, h1 a ha]
    have hc' : c.matchesLock contextId = true := by
      simp [ConnectionState.matchesLock, hc]
    rw [closeContext]
    simp only [hm, Bool.false_eq_true, ↓reduceIte, hq]
    rw [hr, replaceFirst_of_split _ _ l1 l2 c h1' hc']
    rfl
  · intro hw hall
    have hm : p.writeConnection.matchesLock contextId = false := by
      simp [ConnectionState.matchesLock, hw]
    have hall' : ∀ a ∈ p.readConnections, a.matchesLock contextId = false := fun a ha => by
      simp [ConnectionState.matchesLock, hall a ha]
    rw [closeContext]
    simp only [hm, Bool.false_eq_true, ↓reduceIte]
    cases hrq : p.readQueue with
    | cons n rest =>
      simp only [(replaceFirst_eq_none_iff _ _ _).mpr hall']
    | nil =>
      simp only [(replaceFirst_eq_none_iff _ _ _).mpr hall']
  · intro dbMap dbName hfind
    simp [sqliteReleaseLock, mapCount, hfind]

/-- Witness for C4: releasing a context held by the only reader while
`"n"` waits in the read queue rebinds that reader to `"n"`; releasing an
unknown context is a no-op; releasing on an unregistered name is a no-op. -/
theorem closeContext_spec_witness :
    (ConnectionPool.closeContext
        { dbName := "db", writeConnection := { lock := some "w", workQueue := [] },
          readConnections := [{ lock := some "r", workQueue := [] }],
          readQueue := ["n"], writeQueue := [] } "r" =
      ({ dbName := "db", writeConnection := { lock := some "w", workQueue := [] },
         readConnections := [{ lock := some "n", workQueue := [] }],
         readQueue := [], writeQueue := [] },
       [PoolEvent.contextAvailable "db" "n"])) ∧
    (ConnectionPool.closeContext
        { dbName := "db", writeConnection := { lock := some "w", workQueue := [] },
          readConnections := [{ lock := some "r", workQueue := [] }],
          readQueue := ["n"], writeQueue := [] } "gone" =
      ({ dbName := "db", writeConnection := { lock := some "w", workQueue := [] },
         readConnections := [{ lock := some "r", workQueue := [] }],
         readQueue := ["n"], writeQueue := [] }, [])) ∧
    sqliteReleaseLock [] "db" "r" = ([], []) := by
  refine ⟨?_, ?_, ?_⟩
  · have h := (closeContext_spec
      { dbName := "db", writeConnection := { lock := some "w", workQueue := [] },
        readConnections := [{ lock := some "r", workQueue := [] }],
        readQueue := ["n"], writeQueue := [] } "r").2.2.1
      [] { lock := some "r", workQueue := [] } [] "n" []
      (by simp) rfl (by simp) rfl rfl
    simpa [ConnectionState.activateLock] using h
  · have h := (closeContext_spec
      { dbName := "db", writeConnection := { lock := some "w", workQueue := [] },
        readConnections := [{ lock := some "r", workQueue := [] }],
        readQueue := ["n"], writeQueue := [] } "gone").2.2.2.2.1
      (by simp) (by intro a ha; simp only [List.mem_singleton] at ha; subst ha; simp)
    exact h
  · exact (closeContext_spec
      { dbName := "db", writeConnection := ConnectionState.fresh,
        readConnections := [], readQueue := [], writeQueue := [] } "r").2.2.2.2.2
      [] "db" rfl

theorem runOnEach_spec (exec : ExecEnv) (stmt : String) :
    ∀ (cs : List ConnectionState) (i k : Nat) (m : String), k < cs.length →
      (∀ j, j < k → exec (i + j) stmt = SequelLiteralUpdateResult.ok) →
      exec (i + k) stmt = SequelLiteralUpdateResult.error m →
      runOnEach exec stmt i cs =
        (some m, (List.range (k + 1)).map (fun j => (i + j, stmt))) := by
  intro cs
  induction cs with
  | nil => intro i k m hk; simp at hk
  | cons c cs ih =>
    intro i k m hk hok herr
    cases k with
    | zero =>
      have h0 : exec i stmt = SequelLiteralUpdateResult.error m := by simpa using herr
      simp [runOnEach, h0, List.range_succ]
    | succ k =>
      have h0 : exec i stmt = SequelLiteralUpdateResult.ok := by
        simpa using hok 0 (Nat.succ_pos k)
      have hok' : ∀ j, j < k → exec (i + 1 + j) stmt = SequelLiteralUpdateResult.ok := by
        intro j hj
        have := hok (j + 1) (Nat.succ_lt_succ hj)
        simpa [Nat.add_assoc, Nat.add_comm 1 j] using this
      have herr' : exec (i + 1 + k) stmt = SequelLiteralUpdateResult.error m := by
        simpa [Nat.add_assoc, Nat.add_comm 1 k] using herr
      have hk' : k < cs.length := Nat.lt_of_succ_lt_succ (by simpa using hk)
      have hlist : (i, stmt) :: (List.range (k + 1)).map (fun j => (i + 1 + j, stmt)) =
          (List.range (k + 1 + 1)).map (fun j => (i + j, stmt)) := by
        conv_rhs => rw [List.range_succ_eq_map]
        simp only [List.map_cons, List.map_map, Nat.add_zero]
        refine congrArg (List.cons _) ?_
        apply List.map_congr_left
        intro j hj
        simp only [Function.comp_apply, Prod.mk.injEq, and_true]
        omega
      have hrec := ih (i + 1) k m hk' hok' herr'
      simp only [runOnEach, h0, hrec, Prod.mk.injEq, true_and]
      exact hlist

/-- **C10.** When the guard loop of `detachDatabase` has passed (as written,
that requires every connection's lock slot to be non-empty) and the DETACH
statement fails with a SQLite error on the `k`-th connection of
`getAllConnections` (writer first, then readers in index order), the call
returns that error at once: the trace shows the statement executed exactly
on connections `0 .. k`, none after `k`, and contains only the DETACH
statement — no revert ATTACH is attempted. -/
theorem detachDatabase_error_propagation (p : ConnectionPool) (exec : ExecEnv)
    (dbAlias : String) (k : Nat) (m : String)
    (hlocked : ∀ c ∈ p.getAllConnections, c.isEmptyLock = false)
    (hk : k < p.getAllConnections.length)
    (hok : ∀ j, j < k →
      exec j ("DETACH DATABASE " ++ dbAlias) = SequelLiteralUpdateResult.ok)
    (herr : exec k ("DETACH DATABASE " ++ dbAlias) = SequelLiteralUpdateResult.error m) :
    p.detachDatabase exec dbAlias =
      (SQLiteOPResult.SQLiteError
        (p.dbName ++ " was unable to attach another database: " ++ m),
       (List.range (k + 1)).map (fun j => (j, "DETACH DATABASE " ++ dbAlias))) := by
  have hguard : p.getAllConnections.any (·.isEmptyLock) = false := by
    rw [List.any_eq_false]
    intro c hc
    simp [hlocked c hc]
  have hrun := runOnEach_spec exec ("DETACH DATABASE " ++ dbAlias)
    p.getAllConnections 0 k m hk (by simpa using hok) (by simpa using herr)
  rw [detachDatabase]
  simp only [hguard, Bool.false_eq_true, ↓reduceIte, hrun]
  simp

/-- Witness for C10: writer and one reader both locked, DETACH succeeds on
the writer (position 0) and fails on the reader (position 1) with "disk I/O
error": the call returns the wrapped error and the trace covers exactly
positions 0 and 1. -/
theorem detachDatabase_error_propagation_witness :
    ConnectionPool.detachDatabase
        { dbName := "db", writeConnection := { lock := some "w", workQueue := [] },
          readConnections := [{ lock := some "r", workQueue := [] }],
          readQueue := [], writeQueue := [] }
        (fun i _ => if i = 1 then SequelLiteralUpdateResult.error "disk I/O error"
          else SequelLiteralUpdateResult.ok)
        "al" =
      (SQLiteOPResult.SQLiteError
        "db was unable to attach another database: disk I/O error",
       [(0, "DETACH DATABASE al"), (1, "DETACH DATABASE al")]) := by
  have h := detachDatabase_error_propagation
    { dbName := "db", writeConnection := { lock := some "w", workQueue := [] },
      readConnections := [{ lock := some "r", workQueue := [] }],
      readQueue := [], writeQueue := [] }
    (fun i _ => if i = 1 then SequelLiteralUpdateResult.error "disk I/O error"
      else SequelLiteralUpdateResult.ok)
    "al" 1 "disk I/O error"
    (by intro c hc
        simp only [getAllConnections, List.mem_cons, List.mem_singleton] at hc
        rcases hc with rfl | rfl | h
        · rfl
        · rfl
        · cases h)
    (by simp [getAllConnections])
    (by intro j hj
        have : j = 0 := by omega
        subst this
        rfl)
    (by rfl)
  simpa using h

/-- **C1 (code evaluated at the failing input).** On a freshly opened pool
— writer and one reader, every lock slot empty — `attachDatabase` returns
the "Some DB connections were locked" error and executes the ATTACH on no
connection, and `detachDatabase` does the same; conversely, when every slot
is held the ATTACH is executed on every connection.  The guard
`if (connectionState->isEmptyLock())` is inverted relative to its own error
message: the claimed behaviour (fail iff some slot is non-empty) is
falsified in both directions. -/
theorem attachDatabase_guard_inverted :
    (∀ c ∈ (ConnectionPool.mkPool "db" "/docs" 1).getAllConnections, c.isEmptyLock = true) ∧
    ConnectionPool.attachDatabase (ConnectionPool.mkPool "db" "/docs" 1)
        (fun _ _ => SequelLiteralUpdateResult.ok) "other" "/docs" "al" =
      (SQLiteOPResult.SQLiteError
        "db was unable to attach another database: Some DB connections were locked", []) ∧
    ConnectionPool.detachDatabase (ConnectionPool.mkPool "db" "/docs" 1)
        (fun _ _ => SequelLiteralUpdateResult.ok) "al" =
      (SQLiteOPResult.SQLiteError
        "db was unable to detach another database: Some DB connections were locked", []) ∧
    ConnectionPool.attachDatabase
        { dbName := "db", writeConnection := { lock := some "w", workQueue := [] },
          readConnections := [{ lock := some "r", workQueue := [] }],
          readQueue := [], writeQueue := [] }
        (fun _ _ => SequelLiteralUpdateResult.ok) "other" "/docs" "al" =
      (SQLiteOPResult.SQLiteOk,
       [(0, "ATTACH DATABASE '/docs/other' AS al"),
        (1, "ATTACH DATABASE '/docs/other' AS al")]) := by
  refine ⟨by decide, by rfl, by rfl, by rfl⟩

end ConnectionPool

/-! ## Registry claims -/

theorem mapFind_mapErase (m : DBMap) (dbName : String) :
    mapFind (mapErase m dbName) dbName = none := by
  induction m with
  | nil => rfl
  | cons e rest ih =>
    obtain ⟨k, v⟩ := e
    by_cases h : k = dbName
    · simp [mapErase, h, ih]
    · simp [mapErase, mapFind, h, ih]

/-- **C9.** `sqliteOpenDb` fails with "is already open" when the name is
registered and otherwise registers a freshly constructed pool and returns
Ok; `sqliteCloseDb` (and the other name-routed operations, here
`sqliteAttachDb`) fail with "not open" when the name is absent; a
successful close removes the name, so a subsequent open of the same name
succeeds. -/
theorem registry_open_close_spec (dbMap : DBMap) (dbName docPath : String)
    (numReadConnections : Nat) :
    ((mapFind dbMap dbName).isSome →
      sqliteOpenDb dbMap dbName docPath numReadConnections =
        (SQLiteOPResult.SQLiteError (dbName ++ " is already open"), dbMap)) ∧
    (mapFind dbMap dbName = none →
      sqliteOpenDb dbMap dbName docPath numReadConnections =
        (SQLiteOPResult.SQLiteOk,
         mapStore dbMap dbName
           (some (ConnectionPool.mkPool dbName docPath numReadConnections)))) ∧
    (mapFind dbMap dbName = none →
      sqliteCloseDb dbMap dbName = (generateNotOpenResult dbName, dbMap)) ∧
    (∀ exec docPath2 toAttach dbAlias, mapFind dbMap dbName = none →
      sqliteAttachDb dbMap exec dbName docPath2 toAttach dbAlias =
        generateNotOpenResult dbName) ∧
    ((mapFind dbMap dbName).isSome →
      (sqliteCloseDb dbMap dbName).1 = SQLiteOPResult.SQLiteOk ∧
      mapFind (sqliteCloseDb dbMap dbName).2 dbName = none ∧
      (sqliteOpenDb (sqliteCloseDb dbMap dbName).2 dbName docPath
          numReadConnections).1 = SQLiteOPResult.SQLiteOk) := by
  refine ⟨?_, ?_, ?_, ?_, ?_⟩
  · intro h
    simp [sqliteOpenDb, mapCount, h]
  · intro h
    simp [sqliteOpenDb, mapCount, h]
  · intro h
    simp [sqliteCloseDb, mapCount, h]
  · intro exec docPath2 toAttach dbAlias h
    simp [sqliteAttachDb, mapCount, h]
  · intro h
    have hc : mapCount dbMap dbName = 1 := by simp [mapCount, h]
    have hclose : sqliteCloseDb dbMap dbName =
        (SQLiteOPResult.SQLiteOk, mapErase dbMap dbName) := by
      simp [sqliteCloseDb, mapCount, h]
    refine ⟨by simp [hclose], ?_, ?_⟩
    · simp [hclose, mapFind_mapErase]
    · simp [hclose, sqliteOpenDb, mapCount, mapFind_mapErase]

/-- Witness for C9: with `"db"` open, re-opening it fails with "db is
already open"; closing it and re-opening succeeds; closing or attaching on
the never-opened `"nope"` fails with "is not open". -/
theorem registry_open_close_spec_witness :
    (sqliteOpenDb [("db", some (ConnectionPool.mkPool "db" "/docs" 0))] "db" "/docs" 0 =
      (SQLiteOPResult.SQLiteError "db is already open",
       [("db", some (ConnectionPool.mkPool "db" "/docs" 0))])) ∧
    (sqliteOpenDb
        (sqliteCloseDb [("db", some (ConnectionPool.mkPool "db" "/docs" 0))] "db").2
        "db" "/docs" 0).1 = SQLiteOPResult.SQLiteOk ∧
    sqliteCloseDb [] "nope" = (generateNotOpenResult "nope", []) ∧
    sqliteAttachDb [] (fun _ _ => SequelLiteralUpdateResult.ok) "nope" "/docs" "x" "y" =
      generateNotOpenResult "nope" := by
  refine ⟨?_, ?_, ?_, ?_⟩
  · exact (registry_open_close_spec
      [("db", some (ConnectionPool.mkPool "db" "/docs" 0))] "db" "/docs" 0).1 rfl
  · exact ((registry_open_close_spec
      [("db", some (ConnectionPool.mkPool "db" "/docs" 0))] "db" "/docs" 0).2.2.2.2 rfl).2.2
  · exact (registry_open_close_spec [] "nope" "/docs" 0).2.2.1 rfl
  · exact (registry_open_close_spec [] "nope" "/docs" 0).2.2.2.1
      (fun _ _ => SequelLiteralUpdateResult.ok) "/docs" "x" "y" rfl

/-- **C2 (code evaluated at the failing input).** With `"db"` registered as
open, `sqliteImportFile "db" path` does not import through the registered
pool's write connection: it closes and erases the pool, then `dbMap[dbName]`
default-inserts a null `ConnectionPool *` and the call dereferences it. -/
theorem sqliteImportFile_closes_then_derefs_null :
    sqliteImportFile [("db", some (ConnectionPool.mkPool "db" "/docs" 1))]
        "db" "/docs/data.sql" =
      (ImportOutcome.nullPoolDereference, [("db", (none : Option ConnectionPool))]) := by
  rfl

/-! ## C8: constructor WAL setup -/

/-- **C8 (counterexample).** A pool constructed with `N = 0` readers queues
no WAL-setup task at all: the write connection's work queue is empty,
refuting the claim for "any number N >= 0" (the constructor guards the
setup with `isConcurrencyEnabled`). -/
theorem mkPool_no_wal_setup_without_readers :
    (ConnectionPool.mkPool "db" "/docs" 0).writeConnection.workQueue = [] ∧
    ConnectionPool.walWriteSetup ∉
      (ConnectionPool.mkPool "db" "/docs" 0).writeConnection.workQueue := by
  refine ⟨rfl, by simp [ConnectionPool.mkPool, ConnectionState.fresh]⟩

/-- **C8 (amended).** For every newly constructed pool with `N ≥ 1` readers,
the write connection's work queue holds exactly the WAL-setup task (`PRAGMA
journal_mode = WAL`; `PRAGMA journal_size_limit = 6291456`; `PRAGMA
synchronous = NORMAL`) and each reader's work queue holds exactly the
`PRAGMA synchronous = NORMAL` task — queued at construction, hence (queues
being FIFO) ahead of any user work item enqueued later. -/
theorem mkPool_wal_setup_with_readers (dbName docPath : String) (n : Nat) (h : 0 < n) :
    (ConnectionPool.mkPool dbName docPath n).writeConnection.workQueue =
      [ConnectionPool.walWriteSetup] ∧
    (ConnectionPool.mkPool dbName docPath n).maxReads = n ∧
    ∀ c ∈ (ConnectionPool.mkPool dbName docPath n).readConnections,
      c.workQueue = [ConnectionPool.walReadSetup] := by
  refine ⟨?_, ?_, ?_⟩
  · simp [ConnectionPool.mkPool, h, ConnectionState.queueWork, ConnectionState.fresh]
  · simp [ConnectionPool.mkPool, ConnectionPool.maxReads, h]
  · intro c hc
    simp only [ConnectionPool.mkPool, h, ↓reduceIte, List.mem_map] at hc
    obtain ⟨a, ha, rfl⟩ := hc
    have ha' : a = ConnectionState.fresh := List.eq_of_mem_replicate ha
    subst ha'
    rfl

/-- Witness for the amended C8 at `N = 1`. -/
theorem mkPool_wal_setup_with_readers_witness :
    (ConnectionPool.mkPool "db" "/docs" 1).writeConnection.workQueue =
      [ConnectionPool.walWriteSetup] :=
  (mkPool_wal_setup_with_readers "db" "/docs" 1 (by decide)).1

/-! ## C5: each context ID sits in at most one place -/

namespace ConnectionPool

theorem outstanding_iff_mem (p : ConnectionPool) (c : ConnectionLockId) :
    p.outstanding c ↔ c ∈ p.allIds := by
  simp [outstanding, allIds, List.mem_append, List.mem_filterMap, Option.mem_toList,
    Option.mem_def]

theorem allIds_writeLock (p : ConnectionPool) (c : ConnectionLockId) :
    ((p.writeLock c).1.allIds).Perm (c :: p.allIds) := by
  rw [writeLock]
  by_cases h : p.writeConnection.isEmptyLock
  · have hl : p.writeConnection.lock = none := by
      simpa [ConnectionState.isEmptyLock, Option.isNone_iff_eq_none] using h
    simp only [h, ↓reduceIte, allIds, ConnectionState.activateLock, hl]
    apply List.perm_iff_count.mpr
    intro a
    simp [List.count_append, List.count_cons]
    split_ifs <;> omega
  · simp only [h, Bool.false_eq_true, ↓reduceIte, allIds]
    apply List.perm_iff_count.mpr
    intro a
    simp [List.count_append, List.count_cons]
    split_ifs <;> omega

theorem allIds_readLock (p : ConnectionPool) (c : ConnectionLockId) :
    ((p.readLock c).1.allIds).Perm (c :: p.allIds) := by
  rw [readLock]
  by_cases hcon : p.isConcurrencyEnabled = false
  · rw [if_pos hcon]
    exact allIds_writeLock p c
  · rw [if_neg hcon]
    by_cases hq : p.readQueue.length > 0
    · rw [if_pos hq]
      simp only [allIds]
      apply List.perm_iff_count.mpr
      intro a
      simp [List.count_append, List.count_cons]
      split_ifs <;> omega
    · rw [if_neg hq]
      cases hrf : replaceFirst (·.isEmptyLock) (·.activateLock c) p.readConnections with
      | some rcs =>
        obtain ⟨l1, cc, l2, hsplit, hl1, hcc, rfl⟩ := replaceFirst_eq_some _ _ hrf
        have hccl : cc.lock = none := by
          simpa [ConnectionState.isEmptyLock, Option.isNone_iff_eq_none] using hcc
        simp only [allIds, hsplit, List.filterMap_append, List.filterMap_cons,
          ConnectionState.activateLock, hccl]
        apply List.perm_iff_count.mpr
        intro a
        simp [List.count_append, List.count_cons]
        split_ifs <;> omega
      | none =>
        simp only [allIds]
        apply List.perm_iff_count.mpr
        intro a
        simp [List.count_append, List.count_cons]
        split_ifs <;> omega

theorem closeContext_nodup (p : ConnectionPool) (c : ConnectionLockId)
    (h : p.allIds.Nodup) : ((p.closeContext c).1.allIds).Nodup := by
  by_cases hw : p.writeConnection.matchesLock c
  · have hl : p.writeConnection.lock = some c := by
      simpa [ConnectionState.matchesLock] using hw
    cases hq : p.writeQueue with
    | cons n rest =>
      have hres : (p.closeContext c).1 = { p with
          writeConnection := p.writeConnection.activateLock n
          writeQueue := rest } := by
        simp [closeContext, hw, hq]
      rw [hres]
      have hperm_old : p.allIds.Perm
          (n :: c :: (p.readQueue ++ rest ++ p.readConnections.filterMap (·.lock))) := by
        simp only [allIds, hl, hq]
        apply List.perm_iff_count.mpr
        intro a
        simp [List.count_append, List.count_cons]
        split_ifs <;> omega
      have hperm_new : ({ p with
            writeConnection := p.writeConnection.activateLock n
            writeQueue := rest } : ConnectionPool).allIds.Perm
          (n :: (p.readQueue ++ rest ++ p.readConnections.filterMap (·.lock))) := by
        simp only [allIds, ConnectionState.activateLock]
        apply List.perm_iff_count.mpr
        intro a
        simp [List.count_append, List.count_cons]
        split_ifs <;> omega
      have hnodup2 := hperm_old.nodup h
      have hsub : (n :: (p.readQueue ++ rest ++ p.readConnections.filterMap (·.lock))).Sublist
          (n :: c :: (p.readQueue ++ rest ++ p.readConnections.filterMap (·.lock))) :=
        (List.sublist_cons_self c _).cons₂ n
      exact hperm_new.symm.nodup (List.Nodup.sublist hsub hnodup2)
    | nil =>
      have hres : (p.closeContext c).1 =
          { p with writeConnection := p.writeConnection.clearLock } := by
        simp [closeContext, hw, hq]
      rw [hres]
      have hperm_old : p.allIds.Perm
          (c :: (p.readQueue ++ p.readConnections.filterMap (·.lock))) := by
        simp only [allIds, hl, hq]
        apply List.perm_iff_count.mpr
        intro a
        simp [List.count_append, List.count_cons]
        split_ifs <;> omega
      have hperm_new : ({ p with writeConnection := p.writeConnection.clearLock } :
            ConnectionPool).allIds.Perm
          (p.readQueue ++ p.readConnections.filterMap (·.lock)) := by
        simp only [allIds, ConnectionState.clearLock, hq]
        apply List.perm_iff_count.mpr
        intro a
        simp [List.count_append, List.count_cons]
      exact hperm_new.symm.nodup ((hperm_old.nodup h).of_cons)
  · cases hq : p.readQueue with
    | cons n rest =>
      cases hrf : replaceFirst (·.matchesLock c) (rebind (some n)) p.readConnections with
      | some rcs =>
        obtain ⟨l1, cc, l2, hsplit, hl1, hcc, rfl⟩ := replaceFirst_eq_some _ _ hrf
        have hres : (p.closeContext c).1 = { p with
            readConnections := l1 ++ rebind (some n) cc :: l2
            readQueue := rest } := by
          simp [closeContext, hw, hq, hrf]
        rw [hres]
        have hccl : cc.lock = some c := by
          simpa [ConnectionState.matchesLock] using hcc
        have hperm_old : p.allIds.Perm (n :: c :: (rest ++ p.writeQueue ++
            p.writeConnection.lock.toList ++ l1.filterMap (·.lock) ++
            l2.filterMap (·.lock))) := by
          simp only [allIds, hq, hsplit, List.filterMap_append, List.filterMap_cons, hccl]
          apply List.perm_iff_count.mpr
          intro a
          simp [List.count_append, List.count_cons]
          split_ifs <;> omega
        have hperm_new : ({ p with
              readConnections := l1 ++ rebind (some n) cc :: l2
              readQueue := rest } : ConnectionPool).allIds.Perm
            (n :: (rest ++ p.writeQueue ++ p.writeConnection.lock.toList ++
              l1.filterMap (·.lock) ++ l2.filterMap (·.lock))) := by
          simp only [allIds, rebind, ConnectionState.activateLock,
            List.filterMap_append, List.filterMap_cons]
          apply List.perm_iff_count.mpr
          intro a
          simp [List.count_append, List.count_cons]
          split_ifs <;> omega
        have hnodup2 := hperm_old.nodup h
        have hsub : (n :: (rest ++ p.writeQueue ++ p.writeConnection.lock.toList ++
              l1.filterMap (·.lock) ++ l2.filterMap (·.lock))).Sublist
            (n :: c :: (rest ++ p.writeQueue ++ p.writeConnection.lock.toList ++
              l1.filterMap (·.lock) ++ l2.filterMap (·.lock))) :=
          (List.sublist_cons_self c _).cons₂ n
        exact hperm_new.symm.nodup (List.Nodup.sublist hsub hnodup2)
      | none =>
        have hres : (p.closeContext c).1 = p := by
          simp [closeContext, hw, hq, hrf]
        rw [hres]
        exact h
    | nil =>
      cases hrf : replaceFirst (·.matchesLock c) (rebind none) p.readConnections with
      | some rcs =>
        obtain ⟨l1, cc, l2, hsplit, hl1, hcc, rfl⟩ := replaceFirst_eq_some _ _ hrf
        have hres : (p.closeContext c).1 =
            { p with readConnections := l1 ++ rebind none cc :: l2 } := by
          simp [closeContext, hw, hq, hrf]
        rw [hres]
        have hccl : cc.lock = some c := by
          simpa [ConnectionState.matchesLock] using hcc
        have hperm_old : p.allIds.Perm (c :: (p.writeQueue ++
            p.writeConnection.lock.toList ++ l1.filterMap (·.lock) ++
            l2.filterMap (·.lock))) := by
          simp only [allIds, hq, hsplit, List.filterMap_append, List.filterMap_cons, hccl]
          apply List.perm_iff_count.mpr
          intro a
          simp [List.count_append, List.count_cons]
          split_ifs <;> omega
        have hperm_new : ({ p with readConnections := l1 ++ rebind none cc :: l2 } :
              ConnectionPool).allIds.Perm
            (p.writeQueue ++ p.writeConnection.lock.toList ++
              l1.filterMap (·.lock) ++ l2.filterMap (·.lock)) := by
          simp only [allIds, rebind, ConnectionState.clearLock, hq,
            List.filterMap_append, List.filterMap_cons]
          apply List.perm_iff_count.mpr
          intro a
          simp [List.count_append, List.count_cons]
        exact hperm_new.symm.nodup ((hperm_old.nodup h).of_cons)
      | none =>
        have hres : (p.closeContext c).1 = p := by
          simp [closeContext, hw, hq, hrf]
        rw [hres]
        exact h

theorem filterMap_lock_replicate_fresh (n : Nat) :
    ((List.replicate n ConnectionState.fresh).filterMap (·.lock)) = [] := by
  induction n with
  | zero => rfl
  | succ n ih => simp [List.replicate_succ, ConnectionState.fresh, ih]

theorem allIds_mkPool (dbName docPath : String) (n : Nat) :
    (mkPool dbName docPath n).allIds = [] := by
  rw [mkPool]
  by_cases h : n > 0
  · simp only [h, ↓reduceIte, allIds, ConnectionState.fresh, ConnectionState.queueWork,
      List.filterMap_map, List.append_nil, List.nil_append]
    have : ∀ m : Nat, ((List.replicate m (ConnectionState.fresh)).filterMap
        (fun cs => ({ cs with workQueue := cs.workQueue ++ [walReadSetup] } :
          ConnectionState).lock)) = [] := by
      intro m
      induction m with
      | zero => rfl
      | succ m ih => simp [List.replicate_succ, ConnectionState.fresh, ih]
    simp [ConnectionState.fresh, this n]
  · simp [h, allIds, ConnectionState.fresh, filterMap_lock_replicate_fresh]

theorem step_nodup {p q : ConnectionPool} (hstep : PoolStep p q)
    (h : p.allIds.Nodup) : q.allIds.Nodup := by
  cases hstep with
  | read c hout =>
    have hmem : c ∉ p.allIds := fun hm => hout ((outstanding_iff_mem p c).mpr hm)
    exact (allIds_readLock p c).symm.nodup (List.nodup_cons.mpr ⟨hmem, h⟩)
  | write c hout =>
    have hmem : c ∉ p.allIds := fun hm => hout ((outstanding_iff_mem p c).mpr hm)
    exact (allIds_writeLock p c).symm.nodup (List.nodup_cons.mpr ⟨hmem, h⟩)
  | close c => exact closeContext_nodup p c h

/-- **C5.** In every pool state reachable from a freshly constructed pool
by `readLock` / `writeLock` steps on context IDs not already outstanding
and arbitrary `closeContext` steps, the flattening of the read wait queue,
the write wait queue and every connection's lock slot (`allIds`) has no
duplicate: each context ID occupies at most one place at a time. -/
theorem reachable_nodup (dbName docPath : String) (numReadConnections : Nat)
    (p : ConnectionPool) (h : Reachable dbName docPath numReadConnections p) :
    p.allIds.Nodup := by
  induction h with
  | refl => simp [allIds_mkPool]
  | tail hsteps hstep ih => exact step_nodup hstep ih

/-- Witness for C5: the state after granting a write lock to `"a"` on a
fresh pool is reachable, and its occupied places hold no duplicate. -/
theorem reachable_nodup_witness :
    (((ConnectionPool.mkPool "db" "/docs" 1).writeLock "a").1.allIds).Nodup :=
  reachable_nodup "db" "/docs" 1 _
    (Relation.ReflTransGen.tail Relation.ReflTransGen.refl
      (PoolStep.write _ "a" (by
        simp [outstanding, mkPool, ConnectionState.fresh, ConnectionState.queueWork])))

end ConnectionPool

end QuickSQLite
